import Mathlib

/-!
Shallow embedding, over exact rationals, of the SQPnP solver found in
sqpnp.cpp (functions RunSQP and SQPnP).  Machine doubles are modelled as
rationals; the library linear-algebra services the solver calls but whose
code is not part of the sources (the SVD of the 9x9 matrix, the SQP step
solver SolveSQPSystem, the nearest-rotation projector) are passed in as
explicit function parameters, and the numeric configuration constants of
the missing helper header are passed in as rational parameters.  Helpers
whose meaning the specification fixes but whose code is absent are defined
below with a doc comment starting with the words Modelled from the spec.
-/

namespace theia

/-- A 9-component ambient rotation vector: the row-major flattening of a
3 by 3 matrix (spec, data model and glossary). -/
abbrev Vec9 := Fin 9 → ℚ

/-- A 3-component vector. -/
abbrev Vec3 := Fin 3 → ℚ

/-- A 4-component vector, standing in for an output quaternion. -/
abbrev Vec4 := Fin 4 → ℚ

/-- A 9 by 9 rational matrix, indexed row then column. -/
abbrev Mat99 := Fin 9 → Fin 9 → ℚ

/-- A 3 by 9 rational matrix. -/
abbrev Mat39 := Fin 3 → Fin 9 → ℚ

/-- A 3 by 3 rational matrix. -/
abbrev Mat33 := Fin 3 → Fin 3 → ℚ

/-- The row-major flattening index: entry (i, j) of a 3 by 3 matrix lives
at position 3 * i + j of its 9-vector. -/
def idx3 (i j : Fin 3) : Fin 9 := ⟨3 * i.val + j.val, by omega⟩

/-- squaredNorm of a 9-vector (Eigen squaredNorm). -/
def squaredNorm9 (v : Vec9) : ℚ :=
  Finset.univ.sum fun i => v i * v i

/-- Modelled from the spec: the helper Determinant9x1 of the missing
sqpnp helper header computes the determinant of a 9-vector reshaped,
row-major, as a 3 by 3 matrix. -/
def Determinant9x1 (r : Vec9) : ℚ :=
  r 0 * (r 4 * r 8 - r 5 * r 7)
    - r 1 * (r 3 * r 8 - r 5 * r 6)
    + r 2 * (r 3 * r 7 - r 4 * r 6)

/-- Modelled from the spec: the helper OrthogonalityError of the missing
sqpnp helper header; per the glossary it is a scalar measuring how far the
reshaping R of a 9-vector is from satisfying Rt R = I.  We take the
squared Frobenius norm of Rt R - I. -/
def OrthogonalityError (r : Vec9) : ℚ :=
  Finset.univ.sum fun j : Fin 3 => Finset.univ.sum fun k : Fin 3 =>
    (Finset.univ.sum (fun i : Fin 3 => r (idx3 i j) * r (idx3 i k))
      - if j = k then 1 else 0) ^ 2

/-- std::numeric_limits of double, max(): the largest finite binary64
value (2 to the 1024 minus 2 to the 971), written as an exact integer
literal so that concrete evaluations reduce. -/
def DBL_MAX : ℚ := 179769313486231570814527423731704356798070567525844996598917476803157260780028538760589558632766878171540458953514382464234321326889464182768467546703537516986049910576551282076245490090389328944075868508455133942304583236903222948165808559332123348274797826204144723168738177180919299881250404026184124858368

/-- The constant SQRT3 of the missing helper header: the binary64 double
closest to the square root of three, as an exact rational. -/
def SQRT3 : ℚ := 3900231685776981 / 2251799813685248

/-- The record a single SQP run fills in (struct SQPSolution).  The C++
struct leaves its Eigen members uninitialized; fields not assigned by the
code path under study are modelled as zero. -/
structure SQPSolution where
  r : Vec9 := fun _ => 0
  r_hat : Vec9 := fun _ => 0
  t : Vec3 := fun _ => 0
  num_iterations : ℕ := 0

/-- The refinement loop of RunSQP (sqpnp.cpp lines 24-33), translated
verbatim including its defect: the loop condition is

  delta_squared_norm > DEFAULT_SQP_SQUARED_TOLERANCE AND
  step++ < DEFAULT_SQP_SQUARED_TOLERANCE

so the iteration cap is the very same constant as the convergence
tolerance, and step is incremented exactly when the left conjunct held.
SolveSQPSystem lives in the missing helper translation unit and is taken
as a function parameter. -/
def runSQPLoop (SolveSQPSystem : Vec9 → Vec9) (sqp_squared_tolerance : ℚ) :
    ℕ → Vec9 → ℚ → ℕ → Vec9 × ℕ
  | 0, r, delta_squared_norm, step =>
      -- Unreachable when called with the fuel RunSQP passes: the loop
      -- continues only while (step : ℚ) < sqp_squared_tolerance, so at
      -- most ceil(sqp_squared_tolerance) bodies ever run.  At this depth
      -- step exceeds the tolerance, so the C++ loop exits here exactly
      -- like this (incrementing step when the left conjunct held).
      if delta_squared_norm > sqp_squared_tolerance then (r, step + 1)
      else (r, step)
  | fuel + 1, r, delta_squared_norm, step =>
      if delta_squared_norm > sqp_squared_tolerance then
        if (step : ℚ) < sqp_squared_tolerance then
          let delta := SolveSQPSystem r
          runSQPLoop SolveSQPSystem sqp_squared_tolerance fuel
            (fun i => r i + delta i) (squaredNorm9 delta) (step + 1)
        else (r, step + 1)
      else (r, step)

/-- RunSQP (sqpnp.cpp lines 20-54): run the (capped) refinement loop from
the max-double sentinel, then flip the sign of the whole vector if its
determinant is negative, and project to the nearest rotation only when
the (now non-negative) determinant exceeds the configured threshold.
NearestRotationMatrix is the projector selected at configuration time;
its code is in the missing helper translation unit, so it is a function
parameter. -/
def RunSQP (SolveSQPSystem : Vec9 → Vec9) (NearestRotationMatrix : Vec9 → Vec9)
    (sqp_squared_tolerance sqp_det_threshold : ℚ) (r0 : Vec9) : SQPSolution :=
  let p := runSQPLoop SolveSQPSystem sqp_squared_tolerance
    (⌈sqp_squared_tolerance⌉₊ + 1) r0 DBL_MAX 0
  let det_r := Determinant9x1 p.1
  let r1 := if det_r < 0 then (fun i => - p.1 i) else p.1
  let det1 := if det_r < 0 then - det_r else det_r
  let r_hat := if det1 > sqp_det_threshold then NearestRotationMatrix r1 else r1
  { r := r1, r_hat := r_hat, t := fun _ => 0, num_iterations := p.2 }

/-- The running accumulator built by the correspondence loop of SQPnP
(sqpnp.cpp lines 76-139): the 9 by 9 quadratic matrix Omega, the 3 by 9
matrix QA of summed Qi * Ai terms, and the scalar running sums. -/
structure AccumState where
  Omega : Mat99
  QA : Mat39
  sum_wx : ℚ
  sum_wy : ℚ
  sum_wx2_plus_wy2 : ℚ
  sum_w : ℚ
  sum_X : ℚ
  sum_Y : ℚ
  sum_Z : ℚ

/-- The all-zero accumulator (Matrix99::Zero and zero-initialized sums,
sqpnp.cpp lines 76-87). -/
def accumInit : AccumState where
  Omega := fun _ _ => 0
  QA := fun _ _ => 0
  sum_wx := 0
  sum_wy := 0
  sum_wx2_plus_wy2 := 0
  sum_w := 0
  sum_X := 0
  sum_Y := 0
  sum_Z := 0

/-- One correspondence's additive contribution to the upper-triangle
entries of Omega (sqpnp.cpp lines 109-131), from the image point (x, y),
the world point (X, Y, Z) and the weight w.  Entries the loop never
touches contribute zero. -/
def omegaContrib (x y X Y Z w : ℚ) : Mat99 := fun p q =>
  -- wx, wy and wsq_norm_m as in lines 93-95
  let wx := x * w
  let wy := y * w
  let wsq_norm_m := w * (x * x + y * y)
  match p.val, q.val with
  -- a. block (0:2, 0:2), upper triangle (lines 112-117)
  | 0, 0 => w * (X * X)
  | 0, 1 => w * (X * Y)
  | 0, 2 => w * (X * Z)
  | 1, 1 => w * (Y * Y)
  | 1, 2 => w * (Y * Z)
  | 2, 2 => w * (Z * Z)
  -- b. block (0:2, 6:8), upper triangle (lines 120-122)
  | 0, 6 => -wx * (X * X)
  | 0, 7 => -wx * (X * Y)
  | 0, 8 => -wx * (X * Z)
  | 1, 7 => -wx * (Y * Y)
  | 1, 8 => -wx * (Y * Z)
  | 2, 8 => -wx * (Z * Z)
  -- c. block (3:5, 6:8), upper triangle (lines 124-126)
  | 3, 6 => -wy * (X * X)
  | 3, 7 => -wy * (X * Y)
  | 3, 8 => -wy * (X * Z)
  | 4, 7 => -wy * (Y * Y)
  | 4, 8 => -wy * (Y * Z)
  | 5, 8 => -wy * (Z * Z)
  -- d. block (6:8, 6:8), upper triangle (lines 129-131)
  | 6, 6 => wsq_norm_m * (X * X)
  | 6, 7 => wsq_norm_m * (X * Y)
  | 6, 8 => wsq_norm_m * (X * Z)
  | 7, 7 => wsq_norm_m * (Y * Y)
  | 7, 8 => wsq_norm_m * (Y * Z)
  | 8, 8 => wsq_norm_m * (Z * Z)
  | _, _ => 0

/-- One correspondence's additive contribution to QA (sqpnp.cpp lines
134-139). -/
def qaContrib (x y X Y Z w : ℚ) : Mat39 := fun p q =>
  let wx := x * w
  let wy := y * w
  let wsq_norm_m := w * (x * x + y * y)
  let wX := w * X
  let wY := w * Y
  let wZ := w * Z
  match p.val, q.val with
  | 0, 0 => wX
  | 0, 1 => wY
  | 0, 2 => wZ
  | 0, 6 => -wx * X
  | 0, 7 => -wx * Y
  | 0, 8 => -wx * Z
  | 1, 3 => wX
  | 1, 4 => wY
  | 1, 5 => wZ
  | 1, 6 => -wy * X
  | 1, 7 => -wy * Y
  | 1, 8 => -wy * Z
  | 2, 0 => -wx * X
  | 2, 1 => -wx * Y
  | 2, 2 => -wx * Z
  | 2, 3 => -wy * X
  | 2, 4 => -wy * Y
  | 2, 5 => -wy * Z
  | 2, 6 => wsq_norm_m * X
  | 2, 7 => wsq_norm_m * Y
  | 2, 8 => wsq_norm_m * Z
  | _, _ => 0

/-- One iteration of the accumulation loop body (sqpnp.cpp lines 91-139)
for an image point (x, y), a world point (X, Y, Z) and a weight w: add
this correspondence's contributions to Omega, QA and the running sums. -/
def accumStep (st : AccumState) (x y X Y Z w : ℚ) : AccumState where
  Omega := fun p q => st.Omega p q + omegaContrib x y X Y Z w p q
  QA := fun p q => st.QA p q + qaContrib x y X Y Z w p q
  sum_wx := st.sum_wx + x * w
  sum_wy := st.sum_wy + y * w
  sum_wx2_plus_wy2 := st.sum_wx2_plus_wy2 + w * (x * x + y * y)
  sum_w := st.sum_w + w
  sum_X := st.sum_X + X
  sum_Y := st.sum_Y + Y
  sum_Z := st.sum_Z + Z

/-- The accumulation loop exactly as the code runs it (sqpnp.cpp lines
89-140): the loop variable i only indexes the weight vector, while the
image point and the world point are both read through rbegin(), i.e. the
LAST element of each input sequence, in every iteration. -/
def accumLoopCode (lastFeat : ℚ × ℚ) (lastPt : ℚ × ℚ × ℚ) :
    List ℚ → AccumState → AccumState
  | [], st => st
  | w :: ws, st =>
      accumLoopCode lastFeat lastPt ws
        (accumStep st lastFeat.1 lastFeat.2 lastPt.1 lastPt.2.1 lastPt.2.2 w)

/-- The accumulated form the code computes from the inputs: every
iteration reads the last image point and the last world point
(feature_positions.rbegin() and world_point.rbegin(), sqpnp.cpp lines
93-103), while weights_.at(i) walks the weight vector. -/
def accumulate (feature_positions : List (ℚ × ℚ)) (world_point : List (ℚ × ℚ × ℚ))
    (weights : List ℚ) : AccumState :=
  accumLoopCode (feature_positions.getLastD (0, 0)) (world_point.getLastD (0, 0, 0))
    weights accumInit

/-- The accumulation as claim C1 states it: correspondence i contributes
the per-correspondence term built from world point i paired with image
point i, scaled by weight i.  This definition follows the claim's words
and exists to be compared with the accumulation the code performs. -/
def accumLoopClaim : List ((ℚ × ℚ) × (ℚ × ℚ × ℚ) × ℚ) → AccumState → AccumState
  | [], st => st
  | (f, p, w) :: rest, st =>
      accumLoopClaim rest (accumStep st f.1 f.2 p.1 p.2.1 p.2.2 w)

/-- The claim-side accumulated form: the sum over all i of the term of
correspondence i. -/
def accumulateClaim (feature_positions : List (ℚ × ℚ))
    (world_point : List (ℚ × ℚ × ℚ)) (weights : List ℚ) : AccumState :=
  accumLoopClaim (feature_positions.zip (world_point.zip weights)) accumInit

/-- The upper-triangle value of the completed Omega (sqpnp.cpp lines
142-150): the block (3:5, 3:5) is copied from block (0:2, 0:2), and the
lower-triangle entries of the off-diagonal blocks that line 143-145 fill
are copies of loop-written upper entries.  Entries in the never-written
block (0:2, 3:5) read the accumulated value, which is zero. -/
def completeOmegaUpper (O : Mat99) (p q : Fin 9) : ℚ :=
  match p.val, q.val with
  | 3, 3 => O 0 0
  | 3, 4 => O 0 1
  | 3, 5 => O 0 2
  | 4, 4 => O 1 1
  | 4, 5 => O 1 2
  | 5, 5 => O 2 2
  | 1, 6 => O 0 7
  | 2, 6 => O 0 8
  | 2, 7 => O 1 8
  | 4, 6 => O 3 7
  | 5, 6 => O 3 8
  | 5, 7 => O 4 8
  | _, _ => O p q

/-- Net effect of the symmetrization of Omega (sqpnp.cpp lines 142-160):
every lower-triangle entry is a copy of the corresponding (possibly
remapped) upper-triangle entry. -/
def completeOmega (O : Mat99) : Mat99 := fun p q =>
  if p.val ≤ q.val then completeOmegaUpper O p q else completeOmegaUpper O q p

/-- The auxiliary calibration-weighted 3 by 3 matrix Q built from the
running sums (sqpnp.cpp lines 163-166). -/
def buildQ (st : AccumState) : Mat33 := fun p q =>
  match p.val, q.val with
  | 0, 0 => st.sum_w
  | 0, 1 => 0
  | 0, 2 => -st.sum_wx
  | 1, 0 => 0
  | 1, 1 => st.sum_w
  | 1, 2 => -st.sum_wy
  | 2, 0 => -st.sum_wx
  | 2, 1 => -st.sum_wy
  | _, _ => st.sum_wx2_plus_wy2

/-- Determinant of a 3 by 3 matrix. -/
def det33 (A : Mat33) : ℚ :=
  A 0 0 * (A 1 1 * A 2 2 - A 1 2 * A 2 1)
    - A 0 1 * (A 1 0 * A 2 2 - A 1 2 * A 2 0)
    + A 0 2 * (A 1 0 * A 2 1 - A 1 1 * A 2 0)

/-- Modelled from the spec: InvertSymmetric3x3 of the missing helper
header, the closed-form adjugate-over-determinant inversion of the small
3 by 3 matrix (spec 4.1 step 2).  Rational division by a zero determinant
yields zero entries. -/
def InvertSymmetric3x3 (A : Mat33) : Mat33 := fun p q =>
  let d := det33 A
  (match p.val, q.val with
   | 0, 0 => A 1 1 * A 2 2 - A 1 2 * A 2 1
   | 0, 1 => A 0 2 * A 2 1 - A 0 1 * A 2 2
   | 0, 2 => A 0 1 * A 1 2 - A 0 2 * A 1 1
   | 1, 0 => A 1 2 * A 2 0 - A 1 0 * A 2 2
   | 1, 1 => A 0 0 * A 2 2 - A 0 2 * A 2 0
   | 1, 2 => A 0 2 * A 1 0 - A 0 0 * A 1 2
   | 2, 0 => A 1 0 * A 2 1 - A 1 1 * A 2 0
   | 2, 1 => A 0 1 * A 2 0 - A 0 0 * A 2 1
   | _, _ => A 0 0 * A 1 1 - A 0 1 * A 1 0) / d

/-- P = -inv(Q) * QA, the 3 by 9 translation-recovery map (sqpnp.cpp
line 173). -/
def Pmat (Qinv : Mat33) (QA : Mat39) : Mat39 := fun i j =>
  -(Finset.univ.sum fun k => Qinv i k * QA k j)

/-- The translation-recovery map the solver computes for given inputs
(unit weights, as resized at sqpnp.cpp line 73). -/
def PmatOf (feature_positions : List (ℚ × ℚ)) (world_point : List (ℚ × ℚ × ℚ)) :
    Mat39 :=
  let st := accumulate feature_positions world_point
    (List.replicate world_point.length 1)
  Pmat (InvertSymmetric3x3 (buildQ st)) st.QA

/-- The completed quadratic matrix Omega the solver decomposes: the
symmetrized accumulation plus the rank update QA-transpose times P
(sqpnp.cpp line 175). -/
def OmegaOf (feature_positions : List (ℚ × ℚ)) (world_point : List (ℚ × ℚ × ℚ)) :
    Mat99 :=
  let st := accumulate feature_positions world_point
    (List.replicate world_point.length 1)
  let P := PmatOf feature_positions world_point
  fun p q => completeOmega st.Omega p q
    + Finset.univ.sum fun k => st.QA k p * P k q

/-- The null-space counting loop (sqpnp.cpp line 185):

  while (s[7 - num_null_vectors] < DEFAULT_RANK_TOLERANCE) num_null_vectors++;

translated with total indexing: reading below index 0 (which the C++
does once the running count k exceeds 7) is the out-of-range branch and
yields none. -/
def countNullLoopAux (s : Fin 9 → ℚ) (rank_tolerance : ℚ) :
    ℕ → ℕ → Option ℕ
  | 0, _ => none
  | fuel + 1, k =>
      if s ⟨7 - k, by omega⟩ < rank_tolerance then
        countNullLoopAux s rank_tolerance fuel (k + 1)
      else some k

/-- The null-space size the code computes: the counting loop starting at
running count 0 (with its fuel, 8, counting the reads that stay inside
the array: the read with running count k touches index 7 - k, so the
ninth read, at running count 8, is the out-of-range one), plus the
unconditional extra increment of sqpnp.cpp line 187. -/
def numNullVectors (s : Fin 9 → ℚ) (rank_tolerance : ℚ) : Option ℕ :=
  (countNullLoopAux s rank_tolerance 8 0).map fun k => k + 1

/-- The null-space size as claim C4 states it: the count of eigenvalues
below the rank tolerance, scanned starting from the smallest eigenvalue
(for a sorted spectrum that scan counts exactly the below-tolerance
eigenvalues), plus one extra candidate index added unconditionally.
This definition follows the claim's words, for comparison with the count
the code computes. -/
def claimNullCount (s : Fin 9 → ℚ) (rank_tolerance : ℚ) : ℕ :=
  (Finset.univ.filter fun i : Fin 9 => s i < rank_tolerance).card + 1

/-- The numeric configuration constants of the missing helper header
(DEFAULT_RANK_TOLERANCE and friends), taken as parameters. -/
structure Params where
  rank_tolerance : ℚ
  orthogonality_squared_error_threshold : ℚ
  sqp_squared_tolerance : ℚ
  sqp_det_threshold : ℚ
  tie_tolerance : ℚ

/-- The library services the solver calls whose code is not part of the
sources: the SVD of the completed Omega (U and the spectrum, sorted
descending by Eigen's contract), the SQP step solver, and the selected
nearest-rotation projector (FOAM or SVD, sqpnp.cpp lines 196-204). -/
structure Oracles where
  svdU : Mat99 → Mat99
  svdS : Mat99 → (Fin 9 → ℚ)
  SolveSQPSystem : Vec9 → Vec9
  NearestRotationMatrix : Vec9 → Vec9

/-- The state of the solution aggregation: the running minimum squared
error (min_sq_error, sqpnp.cpp line 206) and the retained solutions. -/
structure AggState where
  best : ℚ
  sols : List SQPSolution

/-- Modelled from the spec: HandleSolution, the SolutionAggregator of
spec 4.5, whose code is in the missing header.  The candidate's scalar
cost is derived from the quadratic form and the candidate's vector (we
use the normalized vector r_hat, since the direct-acceptance branch
leaves the ambient vector unset); a candidate strictly better than the
running best by more than the tie tolerance replaces it and clears the
near-ties, one within the tie tolerance is retained alongside, any other
is discarded.  The running minimum consulted by the adaptive expansion
is updated here. -/
def HandleSolution (Omega : Mat99) (tie_tolerance : ℚ) (sol : SQPSolution)
    (st : AggState) : AggState :=
  let cost := Finset.univ.sum fun p =>
    Finset.univ.sum fun q => sol.r_hat p * Omega p q * sol.r_hat q
  if cost < st.best - tie_tolerance then { best := cost, sols := [sol] }
  else if cost ≤ st.best + tie_tolerance then
    { best := min st.best cost, sols := st.sols ++ [sol] }
  else st

/-- The non-degenerate refinement of one seed vector as step 5 performs
it (sqpnp.cpp lines 230-232 and 235-237, abstracted over the seed): run
the SQP from the nearest-rotation projection of the seed and recover the
translation by applying P to the normalized rotation. -/
def refineFrom (oc : Oracles) (pm : Params) (P : Mat39) (v : Vec9) : SQPSolution :=
  let s := RunSQP oc.SolveSQPSystem oc.NearestRotationMatrix
    pm.sqp_squared_tolerance pm.sqp_det_threshold (oc.NearestRotationMatrix v)
  { s with t := fun i => Finset.univ.sum fun j => P i j * s.r_hat j }

/-- The per-eigenvector candidate computation of step 5 (sqpnp.cpp lines
215-239), given the already rescaled vector e, returning the candidates
handed to HandleSolution together with the number of RunSQP invocations
the branch performs: the nearly-orthogonal case accepts e directly after
sign-correction by its implied determinant, with iteration count 0 and
no SQP run; otherwise both signs are refined. -/
def candContrib (oc : Oracles) (pm : Params) (P : Mat39) (e : Vec9) :
    List SQPSolution × ℕ :=
  if OrthogonalityError e < pm.orthogonality_squared_error_threshold then
    ([{ r := fun _ => 0,
        r_hat := fun i => Determinant9x1 e * e i,
        t := fun i => Finset.univ.sum fun j => P i j * (Determinant9x1 e * e j),
        num_iterations := 0 }], 0)
  else
    let s0 := RunSQP oc.SolveSQPSystem oc.NearestRotationMatrix
      pm.sqp_squared_tolerance pm.sqp_det_threshold (oc.NearestRotationMatrix e)
    let s0t := { s0 with t := fun i => Finset.univ.sum fun j => P i j * s0.r_hat j }
    let s1 := RunSQP oc.SolveSQPSystem oc.NearestRotationMatrix
      pm.sqp_squared_tolerance pm.sqp_det_threshold
      (oc.NearestRotationMatrix (fun i => - e i))
    let s1t := { s1 with t := fun i => Finset.univ.sum fun j => P i j * s1.r_hat j }
    ([s0t, s1t], 2)

/-- One index of the step 5 loop (sqpnp.cpp lines 211-240): the
eigenvector column is rescaled by SQRT3 (line 214) and the branch's
candidates are handed to HandleSolution in order. -/
def candLoopStep (oc : Oracles) (pm : Params) (Omega : Mat99) (P : Mat39)
    (U : Mat99) (st : AggState) (i : Fin 9) : AggState :=
  let e : Vec9 := fun p => SQRT3 * U p i
  (candContrib oc pm P e).1.foldl
    (fun acc sol => HandleSolution Omega pm.tie_tolerance sol acc) st

/-- Step 5 in full (sqpnp.cpp lines 206-240): the loop runs i over the
indices 9 - num_eigen_points to 8 in order; min_sq_error starts at the
max-double sentinel (line 206) and no solution is retained yet. -/
def candidateLoop (oc : Oracles) (pm : Params) (Omega : Mat99) (P : Mat39)
    (U : Mat99) (num_eigen_points : ℕ) : AggState :=
  ((List.finRange 9).drop (9 - num_eigen_points)).foldl
    (candLoopStep oc pm Omega P U) { best := DBL_MAX, sols := [] }

/-- The adaptive-expansion processing of one eigenvector column
(sqpnp.cpp lines 247-258), translated verbatim: the seed e is the raw
column of U, with no SQRT3 rescaling, and both signs are refined. -/
def expansionBody (oc : Oracles) (pm : Params) (P : Mat39) (U : Mat99)
    (index : Fin 9) : List SQPSolution :=
  let e : Vec9 := fun p => U p index
  let s0 := RunSQP oc.SolveSQPSystem oc.NearestRotationMatrix
    pm.sqp_squared_tolerance pm.sqp_det_threshold (oc.NearestRotationMatrix e)
  let s0t := { s0 with t := fun i => Finset.univ.sum fun j => P i j * s0.r_hat j }
  let s1 := RunSQP oc.SolveSQPSystem oc.NearestRotationMatrix
    pm.sqp_squared_tolerance pm.sqp_det_threshold
    (oc.NearestRotationMatrix (fun p => - e p))
  let s1t := { s1 with t := fun i => Finset.univ.sum fun j => P i j * s1.r_hat j }
  [s0t, s1t]

/-- The adaptive-expansion processing as claim C9 states it: identical
to step 5's non-degenerate branch including the same square-root-of-3
rescaling of the eigenvector before refining both signs.  This
definition follows the claim's words, for comparison with the code. -/
def expansionBodyClaim (oc : Oracles) (pm : Params) (P : Mat39) (U : Mat99)
    (index : Fin 9) : List SQPSolution :=
  [refineFrom oc pm P (fun p => SQRT3 * U p index),
   refineFrom oc pm P (fun p => -(SQRT3 * U p index))]

/-- The adaptive-expansion loop (sqpnp.cpp lines 242-261):

  while (min_sq_error > 3 * s[9 - num_eigen_points - c] and
         9 - num_eigen_points - c > 0)

with c starting at 1 and incremented after each body.  The spectrum read
happens before the bound test, so the loop also returns the list of
(integer) indices at which the spectrum array was read; a read outside
the range 0..8 stops with that index logged (the C++ would read out of
range there). -/
def expansionLoop (oc : Oracles) (pm : Params) (Omega : Mat99) (P : Mat39)
    (U : Mat99) (s : Fin 9 → ℚ) (num_eigen_points : ℕ) (c : ℕ) (st : AggState) :
    AggState × List ℤ :=
  let index : ℤ := 9 - (num_eigen_points : ℤ) - (c : ℤ)
  if h : 0 ≤ index ∧ index < 9 then
    let fidx : Fin 9 := ⟨index.toNat, by omega⟩
    if h2 : st.best > 3 * s fidx ∧ 0 < index then
      let st' := (expansionBody oc pm P U fidx).foldl
        (fun acc sol => HandleSolution Omega pm.tie_tolerance sol acc) st
      let res := expansionLoop oc pm Omega P U s num_eigen_points (c + 1) st'
      (res.1, index :: res.2)
    else (st, [index])
  else (st, [index])
termination_by 9 - c
decreasing_by
  have hc : c < 9 := by omega
  omega

/-- The outcome of a call to SQPnP: the two explicit boolean failure
returns (sqpnp.cpp lines 70 and 188), the out-of-range read the counting
loop can perform, or reaching the end of the function body, which in the
source has no return statement on that path; the internal aggregation
state is carried along for inspection. -/
inductive SqpnpOutcome where
  | retFalse
  | oobRead
  | fellOffEnd (agg : AggState)

/-- SQPnP (sqpnp.cpp lines 64-263).  The output sequences
solution_rotation and solution_translation are threaded through
explicitly; no statement of the function writes to them, so every exit
returns them as received. -/
def SQPnP (oc : Oracles) (pm : Params) (feature_positions : List (ℚ × ℚ))
    (world_point : List (ℚ × ℚ × ℚ)) (solution_rotation : List Vec4)
    (solution_translation : List Vec3) :
    SqpnpOutcome × List Vec4 × List Vec3 :=
  if world_point.length ≠ feature_positions.length ∨ world_point.length < 3
      ∨ feature_positions.length < 3 then
    (.retFalse, solution_rotation, solution_translation)
  else
    let Omega := OmegaOf feature_positions world_point
    let P := PmatOf feature_positions world_point
    let U := oc.svdU Omega
    let s := oc.svdS Omega
    match numNullVectors s pm.rank_tolerance with
    | none => (.oobRead, solution_rotation, solution_translation)
    | some num_null_vectors =>
      if 6 < num_null_vectors then
        (.retFalse, solution_rotation, solution_translation)
      else
        let num_eigen_points :=
          if 0 < num_null_vectors then num_null_vectors else 1
        let agg := candidateLoop oc pm Omega P U num_eigen_points
        let agg2 := expansionLoop oc pm Omega P U s num_eigen_points 1 agg
        (.fellOffEnd agg2.1, solution_rotation, solution_translation)

/-! Concrete instances used by the evaluation theorems below. -/

/-- Three image points, all at the origin of the normalized image plane. -/
def cexFeats : List (ℚ × ℚ) := [(0, 0), (0, 0), (0, 0)]

/-- Three distinct collinear world points. -/
def cexPts : List (ℚ × ℚ × ℚ) := [(1, 0, 0), (2, 0, 0), (5, 0, 0)]

/-- Unit weights for three correspondences, as the solver resizes them. -/
def cexWeights : List ℚ := [1, 1, 1]

/-- Three world points coincident at the origin. -/
def originPts : List (ℚ × ℚ × ℚ) := [(0, 0, 0), (0, 0, 0), (0, 0, 0)]

/-- Two image points: one short of the three the solver requires. -/
def twoFeats : List (ℚ × ℚ) := [(0, 0), (1, 1)]

/-- Two world points. -/
def twoPts : List (ℚ × ℚ × ℚ) := [(0, 0, 1), (1, 0, 1)]

/-- The identity rotation as a row-major 9-vector. -/
def id9 : Vec9 := fun i => if i.val = 0 ∨ i.val = 4 ∨ i.val = 8 then 1 else 0

/-- The first standard basis 9-vector. -/
def e0vec : Vec9 := fun i => if i.val = 0 then 1 else 0

/-- Twice the first standard basis 9-vector. -/
def twoE0 : Vec9 := fun i => if i.val = 0 then 2 else 0

/-- The all-ones 9-vector. -/
def allOnes9 : Vec9 := fun _ => 1

/-- Minus the last standard basis 9-vector. -/
def negE8 : Vec9 := fun i => if i.val = 8 then -1 else 0

/-- The zero 9 by 9 matrix. -/
def zeroMat99 : Mat99 := fun _ _ => 0

/-- The zero 3 by 9 matrix. -/
def zeroMat39 : Mat39 := fun _ _ => 0

/-- A 9 by 9 matrix whose every column is the identity rotation vector. -/
def idColumns : Mat99 := fun p _ =>
  if p.val = 0 ∨ p.val = 4 ∨ p.val = 8 then 1 else 0

/-- A 9 by 9 matrix of ones. -/
def onesMat99 : Mat99 := fun _ _ => 1

/-- A spectrum with one eigenvalue, the smallest, below a tolerance of
one half: descending and non-negative, as a singular value array is. -/
def s4cex : Fin 9 → ℚ := fun i => if i.val = 8 then 0 else 1

/-- A spectrum whose two smallest eigenvalues are below one half. -/
def s4run : Fin 9 → ℚ := fun i => if 7 ≤ i.val then 0 else 1

/-- The all-zero spectrum: the singular values of the zero matrix. -/
def zeroSpec : Fin 9 → ℚ := fun _ => 0

/-- A constant SQP step: always propose the unit correction e0. -/
def c5step : Vec9 → Vec9 := fun _ => e0vec

/-- A constant SQP step of squared norm four. -/
def c5stepBig : Vec9 → Vec9 := fun _ => twoE0

/-- All-zero library oracles. -/
def zeroOracles : Oracles where
  svdU := fun _ _ _ => 0
  svdS := fun _ _ => 0
  SolveSQPSystem := fun _ _ => 0
  NearestRotationMatrix := fun _ _ => 0

/-- Oracles whose projector always answers the identity rotation (a
legitimate projector output) and whose SQP step is the constant
correction that zeroes the last component: one such step turns the
identity into a rank-two, determinant-zero matrix. -/
def rankDropOracles : Oracles where
  svdU := fun _ => onesMat99
  svdS := fun _ _ => 0
  SolveSQPSystem := fun _ => negE8
  NearestRotationMatrix := fun _ => id9

/-- Oracles whose projector is the (scale-sensitive) identity function
and whose SQP step proposes no correction: a converged iterate. -/
def idProjOracles : Oracles where
  svdU := fun _ => idColumns
  svdS := fun _ _ => 0
  SolveSQPSystem := fun _ _ => 0
  NearestRotationMatrix := fun v => v

/-- Oracles whose reported spectrum is s4run. -/
def s4Oracles : Oracles where
  svdU := fun _ _ _ => 0
  svdS := fun _ => s4run
  SolveSQPSystem := fun _ _ => 0
  NearestRotationMatrix := fun _ _ => 0

/-- A concrete choice of the missing configuration constants: rank
tolerance 1e-7, orthogonality threshold 1e-8, SQP squared tolerance
1e-10, determinant threshold one half, tie tolerance one tenth. -/
def pm0 : Params where
  rank_tolerance := 1 / 10000000
  orthogonality_squared_error_threshold := 1 / 100000000
  sqp_squared_tolerance := 1 / 10000000000
  sqp_det_threshold := 1 / 2
  tie_tolerance := 1 / 10

/-! Theorems. -/

/-- Negating a 9-vector negates the determinant of its 3 by 3 reshaping. -/
theorem Determinant9x1_neg (r : Vec9) :
    Determinant9x1 (fun i => - r i) = - Determinant9x1 r := by
  unfold Determinant9x1
  ring

/-- C1: the claim says the accumulated 9x9 quadratic matrix, the
auxiliary sums and QA receive, for every i, the contribution of world
point i paired with image point i.  The code instead reads both points
through rbegin() in every iteration, so the accumulated form is n times
the last correspondence's term.  At image points all (0,0) and world
points (1,0,0), (2,0,0), (5,0,0) with unit weights: the code's sum of X
is 15 = 3 * 5 and its Omega(0,0) is 75 = 3 * 25, while the claimed
per-correspondence accumulation gives 8 and 30. -/
theorem accumulation_ignores_per_index_points :
    (accumulate cexFeats cexPts cexWeights).sum_X = 15
  ∧ (accumulateClaim cexFeats cexPts cexWeights).sum_X = 8
  ∧ (accumulate cexFeats cexPts cexWeights).Omega 0 0 = 75
  ∧ (accumulateClaim cexFeats cexPts cexWeights).Omega 0 0 = 30
  ∧ (accumulate cexFeats cexPts cexWeights).QA 0 0 = 15
  ∧ (accumulateClaim cexFeats cexPts cexWeights).QA 0 0 = 8 := by
  decide!

/-- C3: when the two input sequences differ in length or either has
fewer than three elements, SQPnP returns the explicit failure outcome at
once and the output solution sequences are returned exactly as they were
passed in. -/
theorem sqpnp_rejects_bad_lengths (oc : Oracles) (pm : Params)
    (feats : List (ℚ × ℚ)) (pts : List (ℚ × ℚ × ℚ))
    (rO : List Vec4) (tO : List Vec3)
    (h : feats.length ≠ pts.length ∨ feats.length < 3 ∨ pts.length < 3) :
    SQPnP oc pm feats pts rO tO = (SqpnpOutcome.retFalse, rO, tO) := by
  unfold SQPnP
  rw [if_pos (by omega)]

/-- Witness for C3 at a concrete two-element input. -/
theorem sqpnp_rejects_bad_lengths_witness :
    SQPnP zeroOracles pm0 twoFeats twoPts [] [] =
      (SqpnpOutcome.retFalse, [], []) :=
  sqpnp_rejects_bad_lengths zeroOracles pm0 twoFeats twoPts [] [] (by decide)

/-- C5: the claim says the refinement loop's iteration cap is a bound
independent of the tolerance value; the code bounds the loop by

  step++ < DEFAULT_SQP_SQUARED_TOLERANCE

so the cap is the tolerance constant itself.  Evaluation: with a
never-converging constant unit step and the small tolerance 1e-10 the
loop runs its body exactly once (two loop-condition checks, recorded
iteration count 2) and stops with the once-corrected vector; raising the
"tolerance" constant to 5/2 makes the very same step function loop three
times (recorded count 4): the cap moves with the tolerance. -/
theorem sqp_iteration_cap_equals_tolerance_eval :
    (RunSQP c5step (fun v => v) (1 / 10000000000) (1 / 2)
        (fun _ => 0)).num_iterations = 2
  ∧ (∀ i, (RunSQP c5step (fun v => v) (1 / 10000000000) (1 / 2)
        (fun _ => 0)).r i = e0vec i)
  ∧ (RunSQP c5stepBig (fun v => v) (5 / 2) (1 / 2)
        (fun _ => 0)).num_iterations = 4 := by
  decide!

/-- C7: for every starting vector (and any step solver, projector and
thresholds), the solution RunSQP returns has a non-negative determinant
once reshaped 3 by 3 (the whole vector was sign-flipped if it was
negative), its r_hat is the nearest-rotation projection of the vector
when that determinant exceeds the configured threshold, and is the
unprojected vector otherwise. -/
theorem runsqp_det_nonneg_and_projection_branch
    (SolveSQPSystem NearestRotationMatrix : Vec9 → Vec9)
    (sqp_squared_tolerance sqp_det_threshold : ℚ) (r0 : Vec9) :
    0 ≤ Determinant9x1
        (RunSQP SolveSQPSystem NearestRotationMatrix
          sqp_squared_tolerance sqp_det_threshold r0).r
  ∧ (sqp_det_threshold < Determinant9x1
        (RunSQP SolveSQPSystem NearestRotationMatrix
          sqp_squared_tolerance sqp_det_threshold r0).r →
      (RunSQP SolveSQPSystem NearestRotationMatrix
          sqp_squared_tolerance sqp_det_threshold r0).r_hat =
        NearestRotationMatrix
          (RunSQP SolveSQPSystem NearestRotationMatrix
            sqp_squared_tolerance sqp_det_threshold r0).r)
  ∧ (Determinant9x1
        (RunSQP SolveSQPSystem NearestRotationMatrix
          sqp_squared_tolerance sqp_det_threshold r0).r ≤ sqp_det_threshold →
      (RunSQP SolveSQPSystem NearestRotationMatrix
          sqp_squared_tolerance sqp_det_threshold r0).r_hat =
        (RunSQP SolveSQPSystem NearestRotationMatrix
          sqp_squared_tolerance sqp_det_threshold r0).r) := by
  unfold RunSQP
  generalize runSQPLoop SolveSQPSystem sqp_squared_tolerance
    (⌈sqp_squared_tolerance⌉₊ + 1) r0 DBL_MAX 0 = p
  by_cases hd : Determinant9x1 p.1 < 0
  · simp only [hd, if_true, Determinant9x1_neg]
    refine ⟨by linarith, fun hgt => ?_, fun hle => ?_⟩
    · rw [if_pos (by linarith)]
    · rw [if_neg (by linarith)]
  · simp only [hd, if_false]
    refine ⟨by linarith [not_lt.mp hd], fun hgt => ?_, fun hle => ?_⟩
    · rw [if_pos (by linarith)]
    · rw [if_neg (by linarith)]

/-- C2: the claim says that whenever the solver does not fail it
populates its output rotation and translation sequences with at least
one pair.  No statement of the function writes to either output
parameter on any path (and the non-failure path reaches the end of the
bool function without a return statement), so the outputs come back
exactly as they were passed in, for every input and every behaviour of
the library oracles. -/
theorem sqpnp_never_writes_output_sequences (oc : Oracles) (pm : Params)
    (feats : List (ℚ × ℚ)) (pts : List (ℚ × ℚ × ℚ))
    (rO : List Vec4) (tO : List Vec3) :
    (SQPnP oc pm feats pts rO tO).2 = (rO, tO) := by
  unfold SQPnP
  dsimp only
  split
  · rfl
  · split
    · rfl
    · split
      · rfl
      · rfl

/-- The counting loop of sqpnp.cpp line 185, started at running count k
with the fuel that keeps its reads inside the array, stops at the first
scanned position whose eigenvalue is not below the tolerance. -/
theorem countNullLoopAux_run (s : Fin 9 → ℚ) (tol : ℚ) :
    ∀ (d k fuel : ℕ), d + 1 ≤ fuel →
      (∀ j : ℕ, k ≤ j → j < k + d → s ⟨7 - j, by omega⟩ < tol) →
      ¬ s ⟨7 - (k + d), by omega⟩ < tol →
      countNullLoopAux s tol fuel k = some (k + d) := by
  intro d
  induction d with
  | zero =>
    intro k fuel hf _ hstop
    match fuel, hf with
    | fuel + 1, _ =>
      unfold countNullLoopAux
      rw [if_neg (by simpa using hstop)]
      simp
  | succ d ih =>
    intro k fuel hf hrun hstop
    match fuel, hf with
    | fuel + 1, _ =>
      unfold countNullLoopAux
      rw [if_pos (hrun k (Nat.le_refl k) (by omega))]
      have hstop' : ¬ s ⟨7 - (k + 1 + d), by omega⟩ < tol := by
        intro hcon
        exact hstop (by
          have hidx : (⟨7 - (k + 1 + d), by omega⟩ : Fin 9)
              = ⟨7 - (k + (d + 1)), by omega⟩ := by
            apply Fin.ext
            simp only []
            omega
          rw [hidx] at hcon
          exact hcon)
      have := ih (k + 1) fuel (by omega)
        (fun j h1 h2 => hrun j (by omega) (by omega)) hstop'
      rw [this]
      congr 1
      omega

/-- C4 (counterexample): at the descending non-negative spectrum
(1,1,1,1,1,1,1,1,0) and tolerance one half, the code's null-space size
is 1 - the scan starts at the SECOND-smallest eigenvalue, which is not
below the tolerance - while the claim's formula (the below-tolerance
eigenvalues counted scanning from the smallest, plus one unconditional
extra) gives 2. -/
theorem null_count_differs_from_smallest_scan :
    numNullVectors s4cex (1 / 2) = some 1
  ∧ claimNullCount s4cex (1 / 2) = 2
  ∧ numNullVectors s4cex (1 / 2) ≠ some (claimNullCount s4cex (1 / 2)) := by
  decide!

/-- C4 (amended): the null-space size the code computes equals one plus
the count of consecutive below-tolerance eigenvalues scanned starting at
the SECOND-smallest eigenvalue (the j-th scanned is s[7 - j]); the
unconditional extra increment accounts for the smallest-eigenvalue
direction, which is always a candidate.  Moreover, for inputs that pass
the length checks, the solver returns the failure outcome exactly when
the count it computed exceeds six. -/
theorem null_count_second_smallest_scan_and_failure_iff :
    (∀ (s : Fin 9 → ℚ) (tol : ℚ) (d : ℕ), d ≤ 7 →
        (∀ j : ℕ, j < d → s ⟨7 - j, by omega⟩ < tol) →
        ¬ s ⟨7 - d, by omega⟩ < tol →
        numNullVectors s tol = some (d + 1))
  ∧ ∀ (oc : Oracles) (pm : Params) (feats : List (ℚ × ℚ))
      (pts : List (ℚ × ℚ × ℚ)) (rO : List Vec4) (tO : List Vec3),
      ¬ (pts.length ≠ feats.length ∨ pts.length < 3 ∨ feats.length < 3) →
      ((SQPnP oc pm feats pts rO tO).1 = SqpnpOutcome.retFalse ↔
        ∃ m, numNullVectors (oc.svdS (OmegaOf feats pts)) pm.rank_tolerance
          = some m ∧ 6 < m) := by
  constructor
  · intro s tol d hd hrun hstop
    unfold numNullVectors
    rw [countNullLoopAux_run s tol d 0 8 (by omega)
      (fun j h1 h2 => hrun j (by omega)) (by simpa using hstop)]
    simp
  · intro oc pm feats pts rO tO hlen
    unfold SQPnP
    rw [if_neg hlen]
    dsimp only
    cases hnn : numNullVectors (oc.svdS (OmegaOf feats pts)) pm.rank_tolerance with
    | none =>
      simp [hnn]
    | some m =>
      by_cases h6 : 6 < m
      · simp [hnn, h6]
      · simp only [hnn, if_neg h6]
        constructor
        · intro hcon
          exact absurd hcon (by simp)
        · rintro ⟨m', hm', h6'⟩
          cases hm'
          exact absurd h6' h6

/-- Witness for the amended C4: the spectrum s4run has exactly one
below-tolerance eigenvalue past the smallest, so the code reports a
null-space size of 2; and a concrete passing-length call's failure
outcome is equivalent to its computed count exceeding six. -/
theorem null_count_second_smallest_scan_and_failure_iff_witness :
    numNullVectors s4run (1 / 2) = some 2
  ∧ ((SQPnP s4Oracles pm0 cexFeats cexPts [] []).1 = SqpnpOutcome.retFalse ↔
      ∃ m, numNullVectors (s4Oracles.svdS (OmegaOf cexFeats cexPts))
        pm0.rank_tolerance = some m ∧ 6 < m) := by
  constructor
  · exact null_count_second_smallest_scan_and_failure_iff.1 s4run (1 / 2) 1
      (by omega)
      (fun j hj => by
        interval_cases j
        decide!)
      (by decide!)
  · exact null_count_second_smallest_scan_and_failure_iff.2 s4Oracles pm0
      cexFeats cexPts [] [] (by decide)

/-- C8: step 5's per-eigenvector branching.  If the rescaled
eigenvector's orthogonality residual is below the fixed threshold it is
accepted directly - sign-corrected by its implied determinant, with
translation recovered through P and iteration count 0 - and no SQP
refinement runs (the invocation count is 0); otherwise exactly two
refinements run, one seeded from the nearest-rotation projection of the
vector and one from the projection of its negation, and both are the
candidates handed on for scoring.  The third part records that the loop
hands exactly the branch's candidates for eigenvector column i, rescaled
by SQRT3, to HandleSolution. -/
theorem eigen_candidate_branching :
    (∀ (oc : Oracles) (pm : Params) (P : Mat39) (e : Vec9),
        OrthogonalityError e < pm.orthogonality_squared_error_threshold →
        candContrib oc pm P e =
          ([{ r := fun _ => 0,
              r_hat := fun i => Determinant9x1 e * e i,
              t := fun i => Finset.univ.sum
                fun j => P i j * (Determinant9x1 e * e j),
              num_iterations := 0 }], 0))
  ∧ (∀ (oc : Oracles) (pm : Params) (P : Mat39) (e : Vec9),
        ¬ OrthogonalityError e < pm.orthogonality_squared_error_threshold →
        candContrib oc pm P e =
          ([refineFrom oc pm P e, refineFrom oc pm P (fun i => - e i)], 2))
  ∧ ∀ (oc : Oracles) (pm : Params) (Omega : Mat99) (P : Mat39) (U : Mat99)
      (st : AggState) (i : Fin 9),
      candLoopStep oc pm Omega P U st i =
        (candContrib oc pm P (fun p => SQRT3 * U p i)).1.foldl
          (fun acc sol => HandleSolution Omega pm.tie_tolerance sol acc) st := by
  refine ⟨?_, ?_, ?_⟩
  · intro oc pm P e h
    unfold candContrib
    rw [if_pos h]
  · intro oc pm P e h
    unfold candContrib
    rw [if_neg h]
    rfl
  · intro oc pm Omega P U st i
    rfl

/-- Witness for C8: the identity rotation vector is accepted directly
with no SQP invocation; the all-ones vector is refined in both signs. -/
theorem eigen_candidate_branching_witness :
    candContrib zeroOracles pm0 zeroMat39 id9 =
      ([{ r := fun _ => 0,
          r_hat := fun i => Determinant9x1 id9 * id9 i,
          t := fun i => Finset.univ.sum
            fun j => zeroMat39 i j * (Determinant9x1 id9 * id9 j),
          num_iterations := 0 }], 0)
  ∧ candContrib zeroOracles pm0 zeroMat39 allOnes9 =
      ([refineFrom zeroOracles pm0 zeroMat39 allOnes9,
        refineFrom zeroOracles pm0 zeroMat39 (fun i => - allOnes9 i)], 2) := by
  constructor
  · exact eigen_candidate_branching.1 zeroOracles pm0 zeroMat39 id9
      (by decide!)
  · exact eigen_candidate_branching.2.1 zeroOracles pm0 zeroMat39 allOnes9
      (by decide!)

/-- C9 (counterexample): the claim says the adaptive expansion processes
each eigenvector identically to step 5's non-degenerate branch,
including the same square-root-of-3 rescaling.  The code's expansion
body seeds the refinement with the RAW column of U (sqpnp.cpp line 247
has no SQRT3 factor, unlike line 214).  At column index 5 of a matrix
whose columns are the identity rotation vector, with the
identity-function projector and a zero SQP step, the code's first
refined candidate has rotation component one, while the processing the
claim describes yields SQRT3. -/
theorem expansion_seed_not_rescaled :
    ((expansionBody idProjOracles pm0 zeroMat39 idColumns
        ⟨5, by omega⟩).head?.map fun sol => sol.r_hat 0) = some 1
  ∧ ((expansionBodyClaim idProjOracles pm0 zeroMat39 idColumns
        ⟨5, by omega⟩).head?.map fun sol => sol.r_hat 0) = some SQRT3
  ∧ (1 : ℚ) ≠ SQRT3 := by
  decide!

/-- C9 (amended): the adaptive expansion's per-index processing equals
step 5's non-degenerate branch applied to the UNSCALED eigenvector
column - the projection seeds are the raw column and its negation, both
refined - and the loop continues exactly while the best cost found so
far exceeds three times the next eigenvalue considered and the index
stays positive, handing each body's two candidates to the aggregator
before re-testing with the incremented offset. -/
theorem expansion_matches_unscaled_nondegenerate_branch :
    (∀ (oc : Oracles) (pm : Params) (P : Mat39) (U : Mat99) (index : Fin 9),
        expansionBody oc pm P U index =
          [refineFrom oc pm P (fun p => U p index),
           refineFrom oc pm P (fun p => - U p index)])
  ∧ (∀ (oc : Oracles) (pm : Params) (Omega : Mat99) (P : Mat39) (U : Mat99)
        (s : Fin 9 → ℚ) (nep c : ℕ) (st : AggState)
        (h9 : 0 ≤ (9 : ℤ) - nep - c ∧ (9 : ℤ) - nep - c < 9),
        st.best > 3 * s ⟨((9 : ℤ) - nep - c).toNat, by omega⟩ ∧
            0 < (9 : ℤ) - nep - c →
        expansionLoop oc pm Omega P U s nep c st =
          (let st' := (expansionBody oc pm P U
              ⟨((9 : ℤ) - nep - c).toNat, by omega⟩).foldl
              (fun acc sol => HandleSolution Omega pm.tie_tolerance sol acc) st
           let res := expansionLoop oc pm Omega P U s nep (c + 1) st'
           (res.1, ((9 : ℤ) - nep - c) :: res.2)))
  ∧ ∀ (oc : Oracles) (pm : Params) (Omega : Mat99) (P : Mat39) (U : Mat99)
      (s : Fin 9 → ℚ) (nep c : ℕ) (st : AggState)
      (h9 : 0 ≤ (9 : ℤ) - nep - c ∧ (9 : ℤ) - nep - c < 9),
      ¬ (st.best > 3 * s ⟨((9 : ℤ) - nep - c).toNat, by omega⟩ ∧
          0 < (9 : ℤ) - nep - c) →
      expansionLoop oc pm Omega P U s nep c st = (st, [(9 : ℤ) - nep - c]) := by
  refine ⟨?_, ?_, ?_⟩
  · intro oc pm P U index
    rfl
  · intro oc pm Omega P U s nep c st h9 hgo
    rw [expansionLoop]
    rw [dif_pos h9, dif_pos hgo]
  · intro oc pm Omega P U s nep c st h9 hgo
    rw [expansionLoop]
    rw [dif_pos h9, dif_neg hgo]

/-- Witness for the amended C9: at a concrete index the expansion body
literally is the unscaled two-sign refinement, and a concrete loop state
whose best cost does not exceed three times the next eigenvalue stops
with that single spectrum read. -/
theorem expansion_matches_unscaled_nondegenerate_branch_witness :
    expansionBody idProjOracles pm0 zeroMat39 idColumns ⟨5, by omega⟩ =
      [refineFrom idProjOracles pm0 zeroMat39
         (fun p => idColumns p ⟨5, by omega⟩),
       refineFrom idProjOracles pm0 zeroMat39
         (fun p => - idColumns p ⟨5, by omega⟩)]
  ∧ expansionLoop zeroOracles pm0 zeroMat99 zeroMat39 zeroMat99 s4cex 1 1
      { best := 0, sols := [] } = ({ best := 0, sols := [] }, [7]) := by
  constructor
  · exact expansion_matches_unscaled_nondegenerate_branch.1 idProjOracles pm0
      zeroMat39 idColumns ⟨5, by omega⟩
  · have h := expansion_matches_unscaled_nondegenerate_branch.2.2 zeroOracles
      pm0 zeroMat99 zeroMat39 zeroMat99 s4cex 1 1 { best := 0, sols := [] }
      (by constructor <;> decide!)
      (by decide!)
    simpa using h

/-- C10 (counterexample): an input that reaches the eigendecomposition
can drive the counting loop out of range.  Three correspondences whose
world points coincide at the origin (and pass the length checks) produce
the identically zero quadratic matrix, whose only singular value
spectrum is all zeros; on that spectrum every scanned eigenvalue is
below any positive tolerance, so the loop's ninth read - at array index
minus one - is the out-of-range branch. -/
theorem null_scan_reads_out_of_range_on_zero_spectrum :
    OmegaOf cexFeats originPts = zeroMat99
  ∧ numNullVectors zeroSpec pm0.rank_tolerance = none := by
  constructor
  · decide!
  · decide!

/-- C10 (amended): the counting loop's reads stay inside the array
exactly when some eigenvalue among the scanned positions (indices 7 down
to 0) is not below the tolerance; and every spectrum read the
adaptive-expansion loop performs is at an index within 0..8, for every
loop state reachable from the solver's entry (offset and eigen-point
count summing to at least one and at most nine, as holds at entry where
the offset is 1 and the count is between 1 and 6). -/
theorem scan_read_bounds :
    (∀ (s : Fin 9 → ℚ) (tol : ℚ),
        (∃ j : ℕ, j ≤ 7 ∧ ¬ s ⟨7 - j, by omega⟩ < tol) →
        (numNullVectors s tol).isSome)
  ∧ ∀ (oc : Oracles) (pm : Params) (Omega : Mat99) (P : Mat39) (U : Mat99)
      (s : Fin 9 → ℚ) (nep c : ℕ) (st : AggState),
      1 ≤ c + nep → c + nep ≤ 9 →
      ∀ x ∈ (expansionLoop oc pm Omega P U s nep c st).2,
        0 ≤ x ∧ x ≤ 8 := by
  constructor
  · intro s tol hex
    have key : ∀ (fuel k : ℕ),
        (∃ j : ℕ, k ≤ j ∧ j ≤ 7 ∧ ¬ s ⟨7 - j, by omega⟩ < tol) →
        8 - k ≤ fuel →
        (countNullLoopAux s tol fuel k).isSome := by
      intro fuel
      induction fuel with
      | zero =>
        rintro k ⟨j, hkj, hj7, _⟩ hfk
        omega
      | succ fuel ih =>
        rintro k ⟨j, hkj, hj7, hj⟩ hfk
        unfold countNullLoopAux
        by_cases hk : s ⟨7 - k, by omega⟩ < tol
        · rw [if_pos hk]
          refine ih (k + 1) ⟨j, ?_, hj7, hj⟩ (by omega)
          rcases Nat.eq_or_lt_of_le hkj with h | h
          · exact absurd (h ▸ hk) hj
          · omega
        · rw [if_neg hk]
          rfl

    rcases hex with ⟨j, hj7, hj⟩
    have := key 8 0 ⟨j, Nat.zero_le j, hj7, hj⟩ (by omega)
    unfold numNullVectors
    cases hc : countNullLoopAux s tol 8 0 with
    | none => rw [hc] at this; exact absurd this (by simp)
    | some m => simp
  · intro oc pm Omega P U s nep
    suffices H : ∀ (fuel c : ℕ) (st : AggState), 9 - c ≤ fuel →
        1 ≤ c + nep → c + nep ≤ 9 →
        ∀ x ∈ (expansionLoop oc pm Omega P U s nep c st).2,
          0 ≤ x ∧ x ≤ 8 by
      intro c st h1 h2
      exact H 9 c st (by omega) h1 h2
    intro fuel
    induction fuel with
    | zero =>
      intro c st hfc h1 h2 x hx
      -- here c = 9 and nep = 0: the single read is at index 0
      have hc9 : c = 9 ∧ nep = 0 := by omega
      rw [expansionLoop] at hx
      rw [dif_pos (by omega)] at hx
      rw [dif_neg (by omega)] at hx
      simp only [List.mem_singleton] at hx
      omega
    | succ fuel ih =>
      intro c st hfc h1 h2 x hx
      rw [expansionLoop] at hx
      rw [dif_pos (by omega)] at hx
      by_cases hgo : st.best > 3 * s ⟨((9 : ℤ) - nep - c).toNat, by omega⟩ ∧
          0 < (9 : ℤ) - nep - c
      · rw [dif_pos hgo] at hx
        simp only [List.mem_cons] at hx
        rcases hx with rfl | hx
        · omega
        · exact ih (c + 1) _ (by omega) (by omega) (by omega) x hx
      · rw [dif_neg hgo] at hx
        simp only [List.mem_singleton] at hx
        omega

/-- Witness for the amended C10: a spectrum whose second-smallest
eigenvalue is above tolerance keeps the counting loop in bounds, and the
single index the expansion loop reads in a concrete stopped run is
within 0..8. -/
theorem scan_read_bounds_witness :
    (numNullVectors s4cex (1 / 2)).isSome ∧ (0 ≤ (7 : ℤ) ∧ (7 : ℤ) ≤ 8) := by
  constructor
  · exact scan_read_bounds.1 s4cex (1 / 2) ⟨0, by omega, by decide!⟩
  · refine scan_read_bounds.2 zeroOracles pm0 zeroMat99 zeroMat39 zeroMat99
      s4cex 1 1 { best := 0, sols := [] } (by omega) (by omega) 7 ?_
    rw [expansionLoop]
    rw [dif_pos (by omega)]
    rw [dif_neg (by decide!)]
    simp

/-- Every RunSQP result's normalized rotation is either an output of the
projector, or the unprojected result vector itself, in which case its
determinant did not exceed the threshold. -/
theorem runSQP_rhat_cases (SolveSQPSystem NearestRotationMatrix : Vec9 → Vec9)
    (sqp_squared_tolerance sqp_det_threshold : ℚ) (r0 : Vec9) :
    (∃ v, (RunSQP SolveSQPSystem NearestRotationMatrix
        sqp_squared_tolerance sqp_det_threshold r0).r_hat =
          NearestRotationMatrix v)
  ∨ ((RunSQP SolveSQPSystem NearestRotationMatrix
        sqp_squared_tolerance sqp_det_threshold r0).r_hat =
        (RunSQP SolveSQPSystem NearestRotationMatrix
          sqp_squared_tolerance sqp_det_threshold r0).r
      ∧ Determinant9x1 (RunSQP SolveSQPSystem NearestRotationMatrix
          sqp_squared_tolerance sqp_det_threshold r0).r ≤ sqp_det_threshold) := by
  unfold RunSQP
  generalize runSQPLoop SolveSQPSystem sqp_squared_tolerance
    (⌈sqp_squared_tolerance⌉₊ + 1) r0 DBL_MAX 0 = p
  by_cases hd : Determinant9x1 p.1 < 0
  · simp only [hd, if_true]
    by_cases hthr : - Determinant9x1 p.1 > sqp_det_threshold
    · rw [if_pos hthr]
      exact Or.inl ⟨_, rfl⟩
    · rw [if_neg hthr]
      refine Or.inr ⟨rfl, ?_⟩
      rw [Determinant9x1_neg]
      linarith [not_lt.mp hthr]
  · simp only [hd, if_false]
    by_cases hthr : Determinant9x1 p.1 > sqp_det_threshold
    · rw [if_pos hthr]
      exact Or.inl ⟨_, rfl⟩
    · rw [if_neg hthr]
      exact Or.inr ⟨rfl, not_lt.mp hthr⟩

/-- C6 (counterexample): a returned rotation need not be orthogonal.
With the projector answering the identity rotation and the SQP step
zeroing the last component, the tolerance-capped loop stops after one
step at a rank-two matrix of determinant zero; the determinant does not
exceed the threshold, so RunSQP's near-degenerate branch returns it
UNPROJECTED, and the aggregator retains both such candidates: every
solution kept from this candidate scan has determinant 0 (not 1 within
any tolerance below one) and orthogonality residual 1 (not 0 within any
tolerance below one). -/
theorem solution_set_contains_nonorthogonal_rotation :
    ((candidateLoop rankDropOracles pm0 zeroMat99 zeroMat39 onesMat99 1).sols.map
      fun sol => (Determinant9x1 sol.r_hat, OrthogonalityError sol.r_hat))
      = [(0, 1), (0, 1)] := by
  decide!

/-- C6 (amended): assume the projector honours its contract (exactly
orthogonal output of determinant one, spec 4.3).  Then every candidate
the per-eigenvector processing or the adaptive expansion hands to the
aggregator either carries an exactly orthogonal rotation of determinant
one, or is an unprojected refinement result whose determinant did not
exceed the configured threshold (RunSQP's near-degenerate branch), or is
a directly accepted eigenvector - sign-corrected, with orthogonality
residual below the acceptance threshold.  The orthogonality invariant
thus holds for every returned rotation except on the two explicitly
near-degenerate acceptance paths, which the counterexample shows are
reachable. -/
theorem solution_rotations_orthogonal_unless_below_det_threshold
    (oc : Oracles) (pm : Params)
    (hnrm : ∀ v, OrthogonalityError (oc.NearestRotationMatrix v) = 0
      ∧ Determinant9x1 (oc.NearestRotationMatrix v) = 1) :
    (∀ (P : Mat39) (e : Vec9), ∀ sol ∈ (candContrib oc pm P e).1,
        (OrthogonalityError sol.r_hat = 0 ∧ Determinant9x1 sol.r_hat = 1)
      ∨ Determinant9x1 sol.r_hat ≤ pm.sqp_det_threshold
      ∨ ((sol.r_hat = fun i => Determinant9x1 e * e i)
          ∧ OrthogonalityError e < pm.orthogonality_squared_error_threshold))
  ∧ ∀ (P : Mat39) (U : Mat99) (index : Fin 9),
      ∀ sol ∈ expansionBody oc pm P U index,
        (OrthogonalityError sol.r_hat = 0 ∧ Determinant9x1 sol.r_hat = 1)
      ∨ Determinant9x1 sol.r_hat ≤ pm.sqp_det_threshold := by
  have hrun : ∀ (r0 : Vec9),
      (OrthogonalityError (RunSQP oc.SolveSQPSystem oc.NearestRotationMatrix
          pm.sqp_squared_tolerance pm.sqp_det_threshold r0).r_hat = 0
        ∧ Determinant9x1 (RunSQP oc.SolveSQPSystem oc.NearestRotationMatrix
          pm.sqp_squared_tolerance pm.sqp_det_threshold r0).r_hat = 1)
      ∨ Determinant9x1 (RunSQP oc.SolveSQPSystem oc.NearestRotationMatrix
          pm.sqp_squared_tolerance pm.sqp_det_threshold r0).r_hat
          ≤ pm.sqp_det_threshold := by
    intro r0
    rcases runSQP_rhat_cases oc.SolveSQPSystem oc.NearestRotationMatrix
      pm.sqp_squared_tolerance pm.sqp_det_threshold r0 with ⟨v, hv⟩ | ⟨heq, hle⟩
    · exact Or.inl (hv ▸ hnrm v)
    · exact Or.inr (heq ▸ hle)
  constructor
  · intro P e sol hmem
    unfold candContrib at hmem
    by_cases horth :
        OrthogonalityError e < pm.orthogonality_squared_error_threshold
    · rw [if_pos horth] at hmem
      simp only [List.mem_singleton] at hmem
      subst hmem
      exact Or.inr (Or.inr ⟨rfl, horth⟩)
    · rw [if_neg horth] at hmem
      simp only [List.mem_cons, List.mem_singleton, List.not_mem_nil,
        or_false] at hmem
      rcases hmem with rfl | rfl
      · rcases hrun (oc.NearestRotationMatrix e) with h | h
        · exact Or.inl h
        · exact Or.inr (Or.inl h)
      · rcases hrun (oc.NearestRotationMatrix fun i => - e i) with h | h
        · exact Or.inl h
        · exact Or.inr (Or.inl h)
  · intro P U index sol hmem
    unfold expansionBody at hmem
    simp only [List.mem_cons, List.mem_singleton, List.not_mem_nil,
      or_false] at hmem
    rcases hmem with rfl | rfl
    · exact hrun _
    · exact hrun _

/-- Witness for the amended C6: with the constant identity-rotation
projector (which satisfies the contract) and the rank-dropping step, the
first candidate of the all-ones eigenvector's refinement satisfies the
trichotomy - concretely through its middle, below-threshold branch. -/
theorem solution_rotations_orthogonal_unless_below_det_threshold_witness :
    (OrthogonalityError (refineFrom rankDropOracles pm0 zeroMat39
          allOnes9).r_hat = 0
        ∧ Determinant9x1 (refineFrom rankDropOracles pm0 zeroMat39
          allOnes9).r_hat = 1)
  ∨ Determinant9x1 (refineFrom rankDropOracles pm0 zeroMat39
        allOnes9).r_hat ≤ pm0.sqp_det_threshold
  ∨ (((refineFrom rankDropOracles pm0 zeroMat39 allOnes9).r_hat
        = fun i => Determinant9x1 allOnes9 * allOnes9 i)
      ∧ OrthogonalityError allOnes9
          < pm0.orthogonality_squared_error_threshold) := by
  refine (solution_rotations_orthogonal_unless_below_det_threshold
    rankDropOracles pm0 (fun _ =>
      ⟨(by decide! : OrthogonalityError id9 = 0),
       (by decide! : Determinant9x1 id9 = 1)⟩)).1 zeroMat39
    allOnes9 _ ?_
  unfold candContrib
  rw [if_neg (by decide! :
    ¬ OrthogonalityError allOnes9 < pm0.orthogonality_squared_error_threshold)]
  exact List.mem_cons_self _ _

/-- Witness for C7 at a concrete run whose determinant exceeds the
threshold: the result is non-negative-determinant and projected. -/
theorem runsqp_det_nonneg_and_projection_branch_witness :
    0 ≤ Determinant9x1
        (RunSQP (fun _ _ => 0) (fun v => v) (1 / 10000000000) (1 / 2) id9).r
  ∧ (RunSQP (fun _ _ => 0) (fun v => v) (1 / 10000000000) (1 / 2) id9).r_hat
      = (fun v => v)
        (RunSQP (fun _ _ => 0) (fun v => v) (1 / 10000000000) (1 / 2) id9).r :=
  ⟨(runsqp_det_nonneg_and_projection_branch (fun _ _ => 0) (fun v => v)
      (1 / 10000000000) (1 / 2) id9).1,
   (runsqp_det_nonneg_and_projection_branch (fun _ _ => 0) (fun v => v)
      (1 / 10000000000) (1 / 2) id9).2.1 (by decide!)⟩

end theia
